import Mathlib

/-!
Verification of the formy-worker task/engine core against its specification.

The Python sources are shallowly embedded:
* dynamic JSON-like values become the inductive `JVal`;
* Python dicts become association lists (`Dict`) with first-match lookup;
* exceptions become `Except PyExc`;
* external effects (HTTP backends, the clock, file system, image codecs)
  become explicit oracle parameters, so each theorem quantifies over every
  possible behaviour of the environment.

Sources embedded here:
* `src/app/services/image/engines/external_api.py` (the spec's RemoteApiEngine)
* `src/app/services/image/engines/comfyui_engine.py` (the spec's GraphWorkflowEngine)
* `src/app/services/tasks/worker.py` (the Worker loop)
-/

namespace FormyWorker

/-- A Python exception, identified by its class (and message where relevant). -/
inductive PyExc where
  | exception (msg : String)
  | attributeError
  | typeError
  | keyError
  | timeoutError
  deriving DecidableEq, Repr

/-- A dynamic (JSON-like) Python value.  `img` stands for an opaque decoded
PIL image object (the image codec is an out-of-scope collaborator consumed
at its interface); the tag distinguishes distinct decoded images. -/
inductive JVal where
  | null
  | bool (b : Bool)
  | num (n : Int)
  | str (s : String)
  | arr (xs : List JVal)
  | obj (fields : List (String × JVal))
  | img (tag : Nat)
  deriving Repr

/-- Python dicts with string keys, embedded as association lists
(first occurrence wins on lookup; real Python dicts have no duplicate keys). -/
abbrev Dict := List (String × JVal)

namespace JVal

/-- Python truthiness of a value, `bool(v)`. -/
def truthy : JVal → Bool
  | .null => false
  | .bool b => b
  | .num n => n != 0
  | .str s => s != ""
  | .arr xs => !xs.isEmpty
  | .obj fs => !fs.isEmpty
  | .img _ => true

/-- Python `isinstance(v, dict)`. -/
def isObj : JVal → Bool
  | .obj _ => true
  | _ => false

end JVal

namespace Dict

/-- Python `d.get(k)` / `d[k]`: first binding of `k`. -/
def get (d : Dict) (k : String) : Option JVal :=
  match d with
  | [] => none
  | (k', v) :: rest => if k' = k then some v else get rest k

/-- Python `k in d`. -/
def containsKey (d : Dict) (k : String) : Bool :=
  (d.get k).isSome

/-- Python `d[k] = v`: replace the binding of `k` in place, appending when
absent (Python dict assignment keeps the original key position). -/
def set (d : Dict) (k : String) (v : JVal) : Dict :=
  if d.containsKey k then
    d.map (fun kv => if kv.1 = k then (k, v) else kv)
  else
    d ++ [(k, v)]

/-- Python `d.update(u)`: assign every binding of `u` into `d`, in `u`'s
order. -/
def update (d u : Dict) : Dict :=
  u.foldl (fun acc kv => acc.set kv.1 kv.2) d

/-- The keys of the dict, in order. -/
def keys (d : Dict) : List String := d.map Prod.fst

end Dict

/-- Python `v == s` for a dynamic value against a string literal (equality
between a non-string and a string is `False`, never an error). -/
def pyEqStr (v : JVal) (s : String) : Bool :=
  match v with
  | .str s' => s' == s
  | _ => false

/-- Python `d.get(k) == s` where an absent key yields `None` (and
`None == s` is `False`). -/
def optEqStr (v : Option JVal) (s : String) : Bool :=
  match v with
  | some v' => pyEqStr v' s
  | none => false

/-!
## ExternalApiEngine (the spec's RemoteApiEngine)
`src/app/services/image/engines/external_api.py`
-/

/-- The error raised by `_call_api_with_retry`.  `single` is an exception
from one underlying `_call_api` call; `aggregated` is the final
`Exception(f"API 调用失败（已重试 {retry_times} 次）: {last_exception}")`, which
records the configured retry count and the last underlying failure. -/
inductive ApiError where
  | single (msg : String)
  | aggregated (retryTimes : Nat) (last : Option String)
  deriving DecidableEq, Repr

/-- The attempt loop of `ExternalApiEngine._call_api_with_retry`.
`backend i` is the outcome of the `i`-th `_call_api` invocation (the HTTP
backend is an oracle).  Returns the Python outcome together with the number
of `_call_api` invocations performed.  `remaining` counts the attempts left
in `range(retry_times)`, `attempt` is the current index, `lastExc` is the
`last_exception` accumulator. -/
def retryFrom (backend : Nat → Except String JVal) (retryTimes : Nat)
    (lastExc : Option String) (attempt remaining : Nat) :
    Except ApiError JVal × Nat :=
  match remaining with
  | 0 => (.error (.aggregated retryTimes lastExc), 0)
  | r + 1 =>
    match backend attempt with
    | .ok v => (.ok v, 1)
    | .error e =>
      let rec' := retryFrom backend retryTimes (some e) (attempt + 1) r
      (rec'.1, rec'.2 + 1)

/-- Python `ExternalApiEngine._call_api_with_retry(request_data)`, as a
function of the configured `retry_times` and the backend oracle. -/
def callApiWithRetry (retryTimes : Nat) (backend : Nat → Except String JVal) :
    Except ApiError JVal × Nat :=
  retryFrom backend retryTimes none 0 retryTimes

/-- The `input_data` argument of `ExternalApiEngine`: a structured dict or a
bare image path string (the two shapes `_prepare_request` distinguishes). -/
inductive ApiInput where
  | dict (d : Dict)
  | path (p : String)
  deriving Repr

/-- Python `ExternalApiEngine._prepare_request(input_data, **kwargs)`:
start from the input dict (or the base64-embedded image for a path input
when `encode_images` is set), then `update` with the caller's `kwargs`,
then `update` with the engine-configured `extra_params` — so the config
values are written last.  `b64` is the `image_to_base64` collaborator. -/
def prepareRequest (inputData : ApiInput) (kwargs extraParams : Dict)
    (encodeImages : Bool) (b64 : String → String) : Dict :=
  let requestData : Dict :=
    match inputData with
    | .dict d => d
    | .path p => if encodeImages then [("image", .str (b64 p))] else []
  (requestData.update kwargs).update extraParams

/-- The failure raised by `_parse_response` when the response dict carries a
top-level `"error"` field, recording that field's value. -/
inductive ParseError where
  | apiReturnedError (err : JVal)
  deriving Repr

/-- Python `base64_to_image(v)` under the `try/except` of `_parse_response`:
only a string can decode (a non-string raises inside `base64_to_image`, and
the exception is swallowed by the caller); `dec` is the abstract image codec
(`base64` + PIL), returning the decoded image's tag on success. -/
def tryDecodeVal (dec : String → Option Nat) (v : JVal) : Option JVal :=
  match v with
  | .str s => (dec s).map .img
  | _ => none

/-- The `decode_result` step at the foot of `_parse_response`: a string
result is replaced by its decoded image when it decodes (kept unchanged
otherwise); a dict result with an `"image"` entry gets that entry decoded in
place when it decodes; anything else passes through. -/
def decodeStep (dec : String → Option Nat) (result : JVal) : JVal :=
  match result with
  | .str s =>
    match dec s with
    | some tag => .img tag
    | none => .str s
  | .obj rf =>
    match Dict.get rf "image" with
    | some iv =>
      match tryDecodeVal dec iv with
      | some decoded => .obj (Dict.set rf "image" decoded)
      | none => .obj rf
    | none => .obj rf
  | v => v

/-- Python `ExternalApiEngine._parse_response(response)`: non-dict responses
pass through; a top-level `"error"` key raises; otherwise the configured
`result_key` field is extracted (default `"result"`), falling back to the
whole body, and the `decode_result` step is applied when configured. -/
def parseResponse (resultKey : String) (decodeResult : Bool)
    (dec : String → Option Nat) (response : JVal) : Except ParseError JVal :=
  match response with
  | .obj fields =>
    match Dict.get fields "error" with
    | some ev => .error (.apiReturnedError ev)
    | none =>
      let result := (Dict.get fields resultKey).getD (.obj fields)
      .ok (if decodeResult then decodeStep dec result else result)
  | v => .ok v

/-!
## TaskWorker
`src/app/services/tasks/worker.py`
-/

/-- A call into the TaskService made by the worker while handling one task
(`update_task_progress`, `complete_task`, `fail_task`). -/
inductive ServiceCall where
  | updateProgress (progress : Nat) (step : String)
  | completeTask (result : Dict)
  | failTask (code : String) (msg : String)
  deriving Repr

/-- The environment of one `TaskWorker._process_task` run: the outcome of
each collaborator call it may issue.  Every field may raise, modelling an
arbitrary failure of the queue, the task service or the pipeline body. -/
structure ProcEnv where
  /-- Python `self.queue.get_task_data(task_id)`: raises, or returns `None`
  (no stored payload) or the stored task-data dict. -/
  getTaskData : Except PyExc (Option Dict)
  /-- Outcome of `update_task_progress(task_id, 0, "任务已开始处理")`. -/
  progressOutcome : Except PyExc Unit
  /-- Outcome of the body of `_dispatch_to_pipeline` (the mode match plus the
  `_process_*` handler) before its own `try/except`: raises, or returns the
  handler's `Optional[dict]` result. -/
  pipelineInner : Dict → Except PyExc (Option Dict)
  /-- Outcome of `complete_task(task_id, result)`. -/
  completeOutcome : Except PyExc Unit
  /-- Outcome of `fail_task(task_id, error_code=c, ...)`, keyed by the error
  code passed at the call site. -/
  failOutcome : String → Except PyExc Unit

/-- Python `TaskWorker._dispatch_to_pipeline`: its `try/except` converts any
exception from the mode handlers into a `None` result. -/
def dispatchToPipeline (inner : Except PyExc (Option Dict)) : Option Dict :=
  match inner with
  | .ok r => r
  | .error _ => none

/-- The `except Exception` handler at the foot of `_process_task`: invoke
`fail_task` with the `INTERNAL_ERROR` code; if that very call raises, the
exception escapes `_process_task` into the worker loop. -/
def handleTaskExc (env : ProcEnv) (calls : List ServiceCall) :
    List ServiceCall × Except PyExc Unit :=
  (calls ++ [.failTask "INTERNAL_ERROR" "任务处理过程中发生异常"],
   env.failOutcome "INTERNAL_ERROR")

/-- Python `TaskWorker._process_task(task_id)`: returns the ordered trace of
TaskService calls it makes and its Python outcome (normal return or an
escaping exception). -/
def processTask (env : ProcEnv) : List ServiceCall × Except PyExc Unit :=
  match env.getTaskData with
  | .error _ => handleTaskExc env []
  | .ok none => ([], .ok ())
  | .ok (some data) =>
    let calls0 : List ServiceCall := [.updateProgress 0 "任务已开始处理"]
    match env.progressOutcome with
    | .error _ => handleTaskExc env calls0
    | .ok () =>
      match dispatchToPipeline (env.pipelineInner data) with
      | some r =>
        let calls1 := calls0 ++ [.completeTask r]
        match env.completeOutcome with
        | .error _ => handleTaskExc env calls1
        | .ok () => (calls1, .ok ())
      | none =>
        let calls1 := calls0 ++ [.failTask "PROCESSING_FAILED" "任务处理失败"]
        match env.failOutcome "PROCESSING_FAILED" with
        | .error _ => handleTaskExc env calls1
        | .ok () => (calls1, .ok ())

/-- What one iteration of `TaskWorker.start`'s `while self.is_running` loop
does next.  `terminate` would mean the loop body ends the process; the loop
never selects it. -/
inductive LoopAction where
  | next
  | sleepThenNext
  | terminate
  deriving DecidableEq, Repr

/-- One iteration of the `TaskWorker.start` loop: pop (which may raise or
time out), process the popped task, and let the `except` clause around the
body turn any exception into a 1-second pause followed by the next
iteration (`is_running` is left untouched). -/
def workerLoopIter (pop : Except PyExc (Option String))
    (proc : String → List ServiceCall × Except PyExc Unit) : LoopAction :=
  match pop with
  | .error _ => .sleepThenNext
  | .ok none => .next
  | .ok (some tid) =>
    match (proc tid).2 with
    | .error _ => .sleepThenNext
    | .ok () => .next

/-- An exception reaches the task boundary of `_process_task`: one of the
calls issued directly inside its `try` block raised (the pipeline body's
exceptions are absorbed earlier, at `_dispatch_to_pipeline`'s boundary). -/
def taskBoundaryExc (env : ProcEnv) : Prop :=
  (∃ e, env.getTaskData = .error e) ∨
  (∃ d, env.getTaskData = .ok (some d) ∧
    ((∃ e, env.progressOutcome = .error e) ∨
     (env.progressOutcome = .ok () ∧
      ((∃ r, dispatchToPipeline (env.pipelineInner d) = some r ∧
          ∃ e, env.completeOutcome = .error e) ∨
       (dispatchToPipeline (env.pipelineInner d) = none ∧
          ∃ e, env.failOutcome "PROCESSING_FAILED" = .error e)))))

/-!
## ComfyUIEngine (the spec's GraphWorkflowEngine)
`src/app/services/image/engines/comfyui_engine.py`
-/

/-- Python `ComfyUIEngine._get_prompt_status(prompt_id)`.  `resp` is the
outcome of `requests.get(f"{url}/history/{prompt_id}")` followed by
`.json()`: an exception, or the HTTP status code with the decoded history (a
JSON object whose entries are objects, as the ComfyUI history endpoint
returns).  A raised exception anywhere — including `.get` on a non-dict
status block — is caught and classified `"executing"`. -/
def getPromptStatus (promptId : String)
    (resp : Except PyExc (Nat × List (String × Dict))) : String :=
  match resp with
  | .error _ => "executing"
  | .ok (statusCode, history) =>
    if statusCode == 200 then
      match List.lookup promptId history with
      | some promptHistory =>
        if promptHistory.containsKey "outputs" then "completed"
        else
          match promptHistory.get "status" with
          | some (.obj statusInfo) =>
            if optEqStr (Dict.get statusInfo "status_str") "error" then "failed"
            else "executing"
          | some _ => "executing"
          | none => "executing"
      | none => "executing"
    else "executing"

/-- Does a history entry carry a status block reporting an error string
(`prompt_history["status"].get("status_str") == "error"`)? -/
def hasErrorStatus (entry : Dict) : Bool :=
  match entry.get "status" with
  | some (.obj statusInfo) => optEqStr (Dict.get statusInfo "status_str") "error"
  | _ => false

/-- An HTTP request the polling loop may issue against the ComfyUI server.
`cancelRequest` exists only so that "the remote job is not cancelled" is a
non-vacuous statement: the engine has no cancel primitive and never emits
it. -/
inductive ComfyRequest where
  | historyQuery
  | outputFetch
  | cancelRequest
  deriving DecidableEq, Repr

/-- The outcome of `ComfyUIEngine._wait_for_completion`.  `timedOut` is the
raised `TimeoutError(f"工作流执行超时: {self.timeout}秒")`.

Modelled from the spec: the concrete pipelines that classify this
`TimeoutError` under the error taxonomy are not under `src/`; per the spec
the exceeded wall-clock budget fails the job with `PIPELINE_TIMEOUT`, so
`timedOut` is that failure. -/
inductive WaitOutcome where
  | success (out : JVal)
  | workflowFailed
  | timedOut (timeoutSecs : Nat)
  deriving Repr

/-- Python `ComfyUIEngine._wait_for_completion(prompt_id)` as a fuel-indexed
loop.  `clock i` is `time.time()` observed at the `i`-th timeout check,
`start` is `start_time`, `statusAt i` is the string `_get_prompt_status`
returns on the `i`-th poll, and `out` is the value `_get_output` would
return.  The result pairs the outcome (`none` when the fuel runs out with
the job still pending) with the trace of HTTP requests issued. -/
def waitForCompletion (timeout : Nat) (start : Int) (clock : Nat → Int)
    (statusAt : Nat → String) (out : JVal) :
    Nat → Nat → Option WaitOutcome × List ComfyRequest
  | 0, _ => (none, [])
  | fuel + 1, i =>
    if (timeout : Int) < clock i - start then
      (some (.timedOut timeout), [])
    else if statusAt i = "completed" then
      (some (.success out), [.historyQuery, .outputFetch])
    else if statusAt i = "failed" then
      (some .workflowFailed, [.historyQuery])
    else
      let r := waitForCompletion timeout start clock statusAt out fuel (i + 1)
      (r.1, .historyQuery :: r.2)

/-- The node-title tag marking the primary ("raw") image input node. -/
def rawImageTag : String := "input:raw_image:1"

/-- The node-title tag marking the pose-reference image input node. -/
def poseImageTag : String := "input:pose_image:2"

/-- The wrapper keys `_inject_input` excludes from its prompt-format check. -/
def wrapperKeys : List String := ["nodes", "links", "extra", "config"]

/-- The structural heuristic of `_inject_input`: a dict is in prompt format
when every value outside the wrapper keys is a mapping (string keys always
satisfy the `isinstance(k, (int, str))` half of the Python check).  This is
simultaneously the source's check and the spec's "dict whose values are all
mappings, wrapper keys excluded". -/
def isPromptFormat (workflow : Dict) : Bool :=
  workflow.all fun kv => wrapperKeys.contains kv.1 || kv.2.isObj

/-- Python `str(node.get("id"))` keying: `None` ids are skipped by the
source; real workflow ids are ints or strings, the modelled domain. -/
def nodeIdKey (idVal : Option JVal) : Option String :=
  match idVal with
  | some (.num n) => some (toString n)
  | some (.str s) => some s
  | _ => none

/-- Build the prompt mapping from a node list: `prompt[str(node["id"])] =
node` for every node with a non-`None` id; `node.get("id")` on a non-dict
element raises `AttributeError`. -/
def buildFromNodes (nodes : List JVal) : Except PyExc Dict :=
  nodes.foldlM
    (fun acc node =>
      match node with
      | .obj nf =>
        match nodeIdKey (Dict.get nf "id") with
        | some key => .ok (Dict.set acc key (.obj nf))
        | none => .ok acc
      | _ => .error .attributeError)
    []

/-- Iterate the `"nodes"` entry.  The modelled domain has this entry, when
present, as a JSON array (what `json.load` of a workflow graph produces);
iterating a non-list value is modelled as the `TypeError` Python raises on
non-iterables. -/
def nodesList (v : JVal) : Except PyExc (List JVal) :=
  match v with
  | .arr xs => .ok xs
  | _ => .error .typeError

/-- The elements of an array value, or `[]` otherwise. -/
def asArr (v : JVal) : List JVal :=
  match v with
  | .arr xs => xs
  | _ => []

/-- The graph-normalization step of `_inject_input` (lines 137–158): when
the `"nodes"` entry (defaulting to `[]`) is falsy, a dict passing the
prompt-format heuristic is used as-is and any other dict is rebuilt from
its — necessarily empty — node list; when `"nodes"` is truthy, the prompt
is always rebuilt from the node list. -/
def normalizeWorkflow (workflow : Dict) : Except PyExc Dict :=
  let nodesVal := (workflow.get "nodes").getD (.arr [])
  if !nodesVal.truthy then
    if isPromptFormat workflow then .ok workflow
    else do buildFromNodes (← nodesList nodesVal)
  else do buildFromNodes (← nodesList nodesVal)

/-- The input-node scan of `_inject_input`: walk every prompt entry, read
`node.get("title", "")` and remember the last node id titled with the raw
tag and the last titled with the pose tag.  `.get` on a non-dict value
raises `AttributeError`. -/
def scanInputNodes :
    List (String × JVal) → Option String → Option String →
      Except PyExc (Option String × Option String)
  | [], raw, pose => .ok (raw, pose)
  | (key, .obj nf) :: rest, raw, pose =>
    let title := (Dict.get nf "title").getD (.str "")
    if pyEqStr title rawImageTag then scanInputNodes rest (some key) pose
    else if pyEqStr title poseImageTag then scanInputNodes rest raw (some key)
    else scanInputNodes rest raw pose
  | (_, _) :: _, _, _ => .error .attributeError

/-- Write the uploaded filename into a node: ensure the node's `"inputs"`
dict exists, then assign its `"image"` entry.  Item assignment into a
non-dict `"inputs"` value raises `TypeError`, as Python does. -/
def injectImage (prompt : Dict) (nid : String) (filename : String) :
    Except PyExc Dict :=
  match prompt.get nid with
  | some (.obj nf) =>
    let nf' := if Dict.containsKey nf "inputs" then nf
      else Dict.set nf "inputs" (.obj [])
    match Dict.get nf' "inputs" with
    | some (.obj infl) =>
      .ok (prompt.set nid
            (.obj (Dict.set nf' "inputs"
              (.obj (Dict.set infl "image" (.str filename))))))
    | _ => .error .typeError
  | some _ => .error .typeError
  | none => .error .keyError

/-- One injection block of `_inject_input`: when both the image path and the
found node id are truthy, upload the image; a truthy uploaded filename is
written into the node, and a failed upload (`None`) silently skips the
injection. -/
def injectOne (prompt : Dict) (path : Option String) (nid : Option String)
    (upload : String → Option String) : Except PyExc Dict :=
  match path, nid with
  | some p, some n =>
    if p != "" && n != "" then
      match upload p with
      | some f => if f != "" then injectImage prompt n f else .ok prompt
      | none => .ok prompt
    else .ok prompt
  | _, _ => .ok prompt

/-- Python `ComfyUIEngine._inject_input(workflow, ...)` after the argument
plumbing has resolved the primary (`raw_image_path`) and pose
(`pose_image_path`) paths: normalize the graph, scan for the titled input
nodes, then inject the primary and pose images in turn.  `upload` is
`_upload_image_to_comfyui`, which returns `None` on failure. -/
def injectInput (workflow : Dict) (rawImagePath poseImagePath : Option String)
    (upload : String → Option String) : Except PyExc Dict := do
  let prompt ← normalizeWorkflow workflow
  let nids ← scanInputNodes prompt none none
  let prompt1 ← injectOne prompt rawImagePath nids.1 upload
  injectOne prompt1 poseImagePath nids.2 upload

/-- The `"image"` input field of node `n` in a prompt mapping. -/
def getNodeInputImage (prompt : Dict) (n : String) : Option JVal :=
  match prompt.get n with
  | some (.obj nf) =>
    match Dict.get nf "inputs" with
    | some (.obj infl) => Dict.get infl "image"
    | _ => none
  | _ => none

/-- Does some entry of the mapping hold a node titled with the raw-image
tag? -/
def hasRawTitledNode (d : Dict) : Bool :=
  d.any fun kv =>
    match kv.2 with
    | .obj nf => pyEqStr ((Dict.get nf "title").getD (.str "")) rawImageTag
    | _ => false

/-- Python `os.path.basename` for POSIX paths. -/
def pyBasename (p : String) : String :=
  (p.splitOn "/").getLastD ""

/-- The environment of one `_upload_image_to_comfyui` call: the local file
system and the upload endpoint.  `postOutcome` is `requests.post` followed
by `.json()`: an exception (transport error or undecodable body), or the
HTTP status code with the `"name"` field of the decoded body (the ComfyUI
upload endpoint returns a string name when it returns one). -/
structure UploadEnv where
  fileExists : Bool
  readOutcome : Except PyExc Unit
  postOutcome : Except PyExc (Nat × Option String)

/-- Python `ComfyUIEngine._upload_image_to_comfyui(image_path)`: a missing
file, a raised exception, or an HTTP error status — `raise_for_status`
raises `HTTPError` exactly for `400 ≤ status_code < 600` — all yield
`None`; otherwise the server-assigned name — or, when that is falsy, the
local basename — is returned. -/
def uploadImageToComfyui (env : UploadEnv) (imagePath : String) :
    Option String :=
  if !env.fileExists then none
  else
    match env.readOutcome with
    | .error _ => none
    | .ok () =>
      let filename := pyBasename imagePath
      match env.postOutcome with
      | .error _ => none
      | .ok (statusCode, nameField) =>
        if 400 ≤ statusCode ∧ statusCode < 600 then none
        else
          match nameField with
          | some s => if s != "" then some s else some filename
          | none => some filename

/-- Concrete workflow refuting C8's "judged independently of the `nodes`
wrapper key": every non-wrapper value is a mapping, yet the non-empty node
list forces node-list normalization. -/
def counterexampleWorkflowC8 : Dict :=
  [("nodes", .arr [.obj [("id", .num 1), ("class_type", .str "LoadImage")]]),
   ("5", .obj [("class_type", .str "KSampler")])]

/-- Concrete flat workflow refuting C7's unconditional tolerance: it holds
no node titled with the raw-image tag, and its `"links"` wrapper value is a
list, on which the title scan's `node.get("title", "")` raises. -/
def counterexampleWorkflowC7 : Dict :=
  [("links", .arr [.num 1]),
   ("7", .obj [("class_type", .str "KSampler")])]

/-!
## Association-list dictionary lemmas
-/

lemma Dict.get_nil (k : String) : Dict.get [] k = none := rfl

lemma Dict.get_cons (k1 : String) (v1 : JVal) (rest : Dict) (k : String) :
    Dict.get ((k1, v1) :: rest) k =
      if k1 = k then some v1 else Dict.get rest k := rfl

lemma Dict.update_nil (d : Dict) : Dict.update d [] = d := rfl

lemma Dict.update_cons (d : Dict) (k1 : String) (v1 : JVal) (u : Dict) :
    Dict.update d ((k1, v1) :: u) = Dict.update (Dict.set d k1 v1) u := rfl

lemma Dict.get_eq_none_of_not_mem_keys {d : Dict} {k : String}
    (h : k ∉ d.keys) : Dict.get d k = none := by
  induction d with
  | nil => rfl
  | cons kv rest ih =>
    obtain ⟨k1, v1⟩ := kv
    simp only [Dict.keys, List.map_cons, List.mem_cons, not_or] at h
    rw [Dict.get_cons, if_neg (fun hh => h.1 hh.symm)]
    exact ih (by simpa [Dict.keys] using h.2)

lemma Dict.get_map_set {k : String} (v : JVal) :
    ∀ {d : Dict}, Dict.containsKey d k = true →
      Dict.get (d.map (fun kv => if kv.1 = k then (k, v) else kv)) k = some v := by
  intro d
  induction d with
  | nil => intro h; simp [Dict.containsKey, Dict.get] at h
  | cons kv rest ih =>
    intro h
    obtain ⟨k1, v1⟩ := kv
    simp only [List.map_cons]
    by_cases hk : k1 = k
    · subst hk
      simp [Dict.get_cons]
    · have h' : Dict.containsKey rest k = true := by
        simpa [Dict.containsKey, Dict.get_cons, hk] using h
      rw [show ((if (k1, v1).1 = k then (k, v) else (k1, v1)) : String × JVal)
            = (k1, v1) by simp [hk],
        Dict.get_cons, if_neg hk]
      exact ih h'

lemma Dict.get_append_single {k : String} (v : JVal) :
    ∀ {d : Dict}, Dict.containsKey d k = false →
      Dict.get (d ++ [(k, v)]) k = some v := by
  intro d
  induction d with
  | nil => intro _; simp [Dict.get_cons]
  | cons kv rest ih =>
    intro h
    obtain ⟨k1, v1⟩ := kv
    have hk : ¬ k1 = k := by
      intro hh
      subst hh
      simp [Dict.containsKey, Dict.get_cons] at h
    have h' : Dict.containsKey rest k = false := by
      simpa [Dict.containsKey, Dict.get_cons, hk] using h
    rw [List.cons_append, Dict.get_cons, if_neg hk]
    exact ih h'

lemma Dict.get_set_self (d : Dict) (k : String) (v : JVal) :
    Dict.get (Dict.set d k v) k = some v := by
  unfold Dict.set
  by_cases h : Dict.containsKey d k
  · simp only [h, if_true]
    exact Dict.get_map_set v h
  · simp only [Bool.not_eq_true] at h
    simp only [h, Bool.false_eq_true, if_false]
    exact Dict.get_append_single v h

lemma Dict.get_map_set_ne {k k' : String} (v : JVal) (h : k' ≠ k) :
    ∀ d : Dict,
      Dict.get (d.map (fun kv => if kv.1 = k then (k, v) else kv)) k' =
        Dict.get d k' := by
  intro d
  induction d with
  | nil => rfl
  | cons kv rest ih =>
    obtain ⟨k1, v1⟩ := kv
    simp only [List.map_cons]
    by_cases hk : k1 = k
    · subst hk
      rw [show ((if (k1, v1).1 = k1 then (k1, v) else (k1, v1)) : String × JVal)
            = (k1, v) by simp,
        Dict.get_cons, Dict.get_cons,
        if_neg (fun hh => h hh.symm), if_neg (fun hh => h hh.symm), ih]
    · rw [show ((if (k1, v1).1 = k then (k, v) else (k1, v1)) : String × JVal)
            = (k1, v1) by simp [hk],
        Dict.get_cons, Dict.get_cons]
      by_cases hk' : k1 = k'
      · simp [hk']
      · simp [hk', ih]

lemma Dict.get_append_single_ne {k k' : String} (v : JVal) (h : k' ≠ k) :
    ∀ d : Dict, Dict.get (d ++ [(k, v)]) k' = Dict.get d k' := by
  intro d
  induction d with
  | nil =>
    have hk : ¬ k = k' := fun hh => h hh.symm
    simp [Dict.get_cons, Dict.get, hk]
  | cons kv rest ih =>
    obtain ⟨k1, v1⟩ := kv
    rw [List.cons_append, Dict.get_cons, Dict.get_cons]
    by_cases hk' : k1 = k'
    · simp [hk']
    · simp [hk', ih]

lemma Dict.get_set_ne (d : Dict) {k k' : String} (v : JVal) (h : k' ≠ k) :
    Dict.get (Dict.set d k v) k' = Dict.get d k' := by
  unfold Dict.set
  by_cases hc : Dict.containsKey d k
  · simp only [hc, if_true]
    exact Dict.get_map_set_ne v h d
  · simp only [Bool.not_eq_true] at hc
    simp only [hc, Bool.false_eq_true, if_false]
    exact Dict.get_append_single_ne v h d

lemma Dict.get_update_of_get_none {u : Dict} {k : String} :
    ∀ d : Dict, Dict.get u k = none →
      Dict.get (Dict.update d u) k = Dict.get d k := by
  induction u with
  | nil => intro d _; rfl
  | cons kv rest ih =>
    intro d h
    obtain ⟨k1, v1⟩ := kv
    rw [Dict.get_cons] at h
    by_cases hk : k1 = k
    · rw [if_pos hk] at h
      exact absurd h (by simp)
    · rw [if_neg hk] at h
      rw [Dict.update_cons, ih _ h, Dict.get_set_ne _ _ (fun hh => hk hh.symm)]

lemma Dict.get_update_self {u : Dict} {k : String} {v : JVal} :
    ∀ d : Dict, (Dict.keys u).Nodup → Dict.get u k = some v →
      Dict.get (Dict.update d u) k = some v := by
  induction u with
  | nil => intro d _ h; exact absurd h (by simp [Dict.get])
  | cons kv rest ih =>
    intro d hnd h
    obtain ⟨k1, v1⟩ := kv
    simp only [Dict.keys, List.map_cons, List.nodup_cons] at hnd
    rw [Dict.get_cons] at h
    by_cases hk : k1 = k
    · subst hk
      rw [if_pos rfl] at h
      injection h with hv
      subst hv
      rw [Dict.update_cons]
      have hrest : Dict.get rest k1 = none :=
        Dict.get_eq_none_of_not_mem_keys (by simpa [Dict.keys] using hnd.1)
      rw [Dict.get_update_of_get_none _ hrest]
      exact Dict.get_set_self d k1 v1
    · rw [if_neg hk] at h
      rw [Dict.update_cons]
      exact ih _ (by simpa [Dict.keys] using hnd.2) h

lemma Dict.get_of_mem_nodup {k : String} {v : JVal} :
    ∀ {d : Dict}, (k, v) ∈ d → (Dict.keys d).Nodup → Dict.get d k = some v := by
  intro d
  induction d with
  | nil => intro hmem _; cases hmem
  | cons kv rest ih =>
    intro hmem hnd
    obtain ⟨k1, v1⟩ := kv
    simp only [Dict.keys, List.map_cons, List.nodup_cons] at hnd
    rcases List.mem_cons.mp hmem with heq | hmem2
    · cases heq
      rw [Dict.get_cons, if_pos rfl]
    · have hk : ¬ k1 = k := by
        intro hh
        subst hh
        exact hnd.1 (List.mem_map_of_mem Prod.fst hmem2)
      rw [Dict.get_cons, if_neg hk]
      exact ih hmem2 (by simpa [Dict.keys] using hnd.2)

/-!
## C1 — RemoteApiEngine retry
-/

lemma retryFrom_all_fail (backend : Nat → Except String JVal) (f : Nat → String)
    (hb : ∀ i, backend i = .error (f i)) (retryTimes : Nat) :
    ∀ remaining attempt lastExc, 1 ≤ remaining →
      retryFrom backend retryTimes lastExc attempt remaining =
        (.error (.aggregated retryTimes (some (f (attempt + remaining - 1)))), remaining) := by
  intro remaining
  induction remaining with
  | zero => intro attempt lastExc h; omega
  | succ r ih =>
    intro attempt lastExc _
    unfold retryFrom
    rw [hb attempt]
    cases r with
    | zero =>
      simp [retryFrom]
    | succ r' =>
      have := ih (attempt + 1) (some (f attempt)) (by omega)
      simp only [this]
      have harith : attempt + 1 + (r' + 1) - 1 = attempt + (r' + 1 + 1) - 1 := by omega
      rw [harith]

lemma retryFrom_succeed_at (retryTimes : Nat) (backend : Nat → Except String JVal) (v : JVal) :
    ∀ kpred attempt remaining lastExc, kpred < remaining →
      (∀ i, i < kpred → ∃ e, backend (attempt + i) = .error e) →
      backend (attempt + kpred) = .ok v →
      retryFrom backend retryTimes lastExc attempt remaining = (.ok v, kpred + 1) := by
  intro kpred
  induction kpred with
  | zero =>
    intro attempt remaining lastExc hlt _ hok
    cases remaining with
    | zero => omega
    | succ r =>
      unfold retryFrom
      simp only [Nat.add_zero] at hok
      rw [hok]
  | succ kp ih =>
    intro attempt remaining lastExc hlt hfail hok
    cases remaining with
    | zero => omega
    | succ r =>
      obtain ⟨e, he⟩ := hfail 0 (Nat.succ_pos kp)
      unfold retryFrom
      simp only [Nat.add_zero] at he
      rw [he]
      have hrec := ih (attempt + 1) r (some e) (by omega)
        (fun i hi => by
          obtain ⟨e', he'⟩ := hfail (i + 1) (by omega)
          exact ⟨e', by rw [← he']; ring_nf⟩)
        (by rw [← hok]; ring_nf)
      simp [hrec]

/-- C1: RemoteApiEngine retry.  For every configured `retry_times ≥ 1`:
(1) against a backend that fails the first `k-1` calls and succeeds on the
`k`-th (`1 ≤ k ≤ retry_times`), `_call_api_with_retry` returns the success
result having performed exactly `k` calls; (2) against a backend that always
fails, it performs exactly `retry_times` calls and raises the aggregated
error naming the last underlying failure. -/
theorem remoteApi_retry_spec (retryTimes : Nat) (hr : 1 ≤ retryTimes) :
    (∀ (backend : Nat → Except String JVal) (k : Nat) (v : JVal),
      1 ≤ k → k ≤ retryTimes →
      (∀ i, i < k - 1 → ∃ e, backend i = .error e) →
      backend (k - 1) = .ok v →
      callApiWithRetry retryTimes backend = (.ok v, k)) ∧
    (∀ (backend : Nat → Except String JVal) (f : Nat → String),
      (∀ i, backend i = .error (f i)) →
      callApiWithRetry retryTimes backend =
        (.error (.aggregated retryTimes (some (f (retryTimes - 1)))), retryTimes)) := by
  constructor
  · intro backend k v hk1 hkr hfail hok
    unfold callApiWithRetry
    have := retryFrom_succeed_at retryTimes backend v (k - 1) 0 retryTimes none
      (by omega)
      (fun i hi => by simpa using hfail i hi)
      (by simpa using hok)
    rw [this]
    congr 1
    omega
  · intro backend f hb
    unfold callApiWithRetry
    have := retryFrom_all_fail backend f hb retryTimes retryTimes 0 none hr
    have h0 : 0 + retryTimes - 1 = retryTimes - 1 := by omega
    rw [h0] at this
    exact this

/-- Witness for C1 at a concrete input: `retry_times = 3`, a backend failing
on attempt 0 and succeeding on attempt 1 (`k = 2`), and a backend failing on
every attempt. -/
theorem remoteApi_retry_spec_witness :
    callApiWithRetry 3
        (fun i => if i = 1 then .ok (.str "done") else .error "boom") =
      (.ok (.str "done"), 2) ∧
    callApiWithRetry 3 (fun i => .error (toString i)) =
      (.error (.aggregated 3 (some "2")), 3) := by
  refine ⟨(remoteApi_retry_spec 3 (by decide)).1 _ 2 (.str "done") (by decide) (by decide)
      (fun i hi => ⟨"boom", by interval_cases i; rfl⟩) (by rfl), ?_⟩
  exact (remoteApi_retry_spec 3 (by decide)).2 _ (fun i => toString i) (fun i => rfl)

/-!
## C2, C9 — Worker exception containment
-/

/-- C2: any exception reaching the task boundary is caught there and
converted into a `fail_task` transition carrying the `INTERNAL_ERROR` code;
`_process_task` itself re-raises only when that recovery `fail_task` call
raises; and at the loop level every outcome — including an exception from
`pop` or one escaping `_process_task` — yields a pause-and-continue or a
plain continue, never termination of the loop. -/
theorem worker_exception_containment (env : ProcEnv)
    (pop : Except PyExc (Option String))
    (proc : String → List ServiceCall × Except PyExc Unit) :
    (taskBoundaryExc env →
      ServiceCall.failTask "INTERNAL_ERROR" "任务处理过程中发生异常" ∈ (processTask env).1) ∧
    (∀ e, (processTask env).2 = .error e → env.failOutcome "INTERNAL_ERROR" = .error e) ∧
    workerLoopIter pop proc ≠ .terminate ∧
    (∀ e, pop = .error e → workerLoopIter pop proc = .sleepThenNext) ∧
    (∀ tid e, pop = .ok (some tid) → (proc tid).2 = .error e →
      workerLoopIter pop proc = .sleepThenNext) := by
  refine ⟨?_, ?_, ?_, ?_, ?_⟩
  · rintro (⟨e, he⟩ | ⟨d, hd, hrest⟩)
    · simp [processTask, he, handleTaskExc]
    · rcases hrest with ⟨e, he⟩ | ⟨hp, hrest⟩
      · simp [processTask, hd, he, handleTaskExc]
      · rcases hrest with ⟨r, hr, e, he⟩ | ⟨hr, e, he⟩
        · simp [processTask, hd, hp, hr, he, handleTaskExc]
        · simp [processTask, hd, hp, hr, he, handleTaskExc]
  · intro e h
    unfold processTask at h
    rcases hg : env.getTaskData with eg | og
    · rw [hg] at h; simpa [handleTaskExc] using h
    · rw [hg] at h
      cases og with
      | none => simp at h
      | some d =>
        simp only at h
        rcases hp : env.progressOutcome with ep | u
        · rw [hp] at h; simpa [handleTaskExc] using h
        · rw [hp] at h
          cases hdisp : dispatchToPipeline (env.pipelineInner d) with
          | some r =>
            rw [hdisp] at h
            rcases hc : env.completeOutcome with ec | u'
            · rw [hc] at h; simpa [handleTaskExc] using h
            · rw [hc] at h; simp at h
          | none =>
            rw [hdisp] at h
            rcases hf : env.failOutcome "PROCESSING_FAILED" with ef | u'
            · rw [hf] at h; simpa [handleTaskExc] using h
            · rw [hf] at h; simp at h
  · unfold workerLoopIter
    rcases pop with e | o
    · simp
    · cases o with
      | none => simp
      | some tid => rcases h : (proc tid).2 with e | u <;> simp [h]
  · intro e he; simp [workerLoopIter, he]
  · intro tid e htid hp; simp [workerLoopIter, htid, hp]

/-- Witness for C2 at a concrete environment: `get_task_data` raises, the
recovery `fail_task` succeeds, and `pop` raises at the loop level. -/
theorem worker_exception_containment_witness :
    (ServiceCall.failTask "INTERNAL_ERROR" "任务处理过程中发生异常" ∈
      (processTask
        { getTaskData := .error (.exception "redis down"),
          progressOutcome := .ok (),
          pipelineInner := fun _ => .ok none,
          completeOutcome := .ok (),
          failOutcome := fun _ => .ok () }).1) ∧
    workerLoopIter (.error (.exception "redis down"))
        (fun _ => ([], .ok ())) = .sleepThenNext := by
  constructor
  · exact (worker_exception_containment
      { getTaskData := .error (.exception "redis down"),
        progressOutcome := .ok (),
        pipelineInner := fun _ => .ok none,
        completeOutcome := .ok (),
        failOutcome := fun _ => .ok () }
      (.ok none) (fun _ => ([], .ok ()))).1
      (Or.inl ⟨.exception "redis down", rfl⟩)
  · exact (worker_exception_containment
      { getTaskData := .error (.exception "redis down"),
        progressOutcome := .ok (),
        pipelineInner := fun _ => .ok none,
        completeOutcome := .ok (),
        failOutcome := fun _ => .ok () }
      (.error (.exception "redis down")) (fun _ => ([], .ok ()))).2.2.2.1
      (.exception "redis down") rfl

/-- C9: when the queue holds no stored payload for the popped task id
(`get_task_data` returns a falsy value), `_process_task` returns normally
without making a single TaskService call — the task is consumed from the
queue but transitions neither to PROCESSING nor to COMPLETED nor to
FAILED. -/
theorem worker_missing_payload_no_transition (env : ProcEnv)
    (h : env.getTaskData = .ok none) :
    processTask env = ([], .ok ()) := by
  simp [processTask, h]

/-- Witness for C9 at a concrete environment whose stored payload is
missing. -/
theorem worker_missing_payload_no_transition_witness :
    processTask
        { getTaskData := .ok none,
          progressOutcome := .ok (),
          pipelineInner := fun _ => .ok none,
          completeOutcome := .ok (),
          failOutcome := fun _ => .ok () } = ([], .ok ()) :=
  worker_missing_payload_no_transition _ rfl

/-!
## C3 — GraphWorkflowEngine status classification
-/

lemma getPromptStatus_found (promptId : String)
    (history : List (String × Dict)) (entry : Dict)
    (hlook : List.lookup promptId history = some entry) :
    getPromptStatus promptId (.ok (200, history)) =
      (if Dict.containsKey entry "outputs" then "completed"
       else
        match Dict.get entry "status" with
        | some (.obj statusInfo) =>
          if optEqStr (Dict.get statusInfo "status_str") "error" then "failed"
          else "executing"
        | some _ => "executing"
        | none => "executing") := by
  simp [getPromptStatus, hlook]

/-- C3: GraphWorkflowEngine status polling over a found history entry —
an entry with an `"outputs"` key is always classified `completed`
(regardless of any status block); an entry without `"outputs"` whose status
block reports the error string is classified `failed`; every other entry is
classified `executing`. -/
theorem comfy_status_classification (promptId : String)
    (history : List (String × Dict)) (entry : Dict)
    (hlook : List.lookup promptId history = some entry) :
    (Dict.containsKey entry "outputs" = true →
      getPromptStatus promptId (.ok (200, history)) = "completed") ∧
    (Dict.containsKey entry "outputs" = false → hasErrorStatus entry = true →
      getPromptStatus promptId (.ok (200, history)) = "failed") ∧
    (Dict.containsKey entry "outputs" = false → hasErrorStatus entry = false →
      getPromptStatus promptId (.ok (200, history)) = "executing") := by
  rw [getPromptStatus_found promptId history entry hlook]
  refine ⟨?_, ?_, ?_⟩
  · intro ho
    simp [ho]
  · intro ho he
    unfold hasErrorStatus at he
    rcases hs : Dict.get entry "status" with _ | sv
    · rw [hs] at he; simp at he
    · rw [hs] at he
      rcases sv with _ | b | n | s | xs | statusInfo | t <;> simp_all
  · intro ho he
    unfold hasErrorStatus at he
    rcases hs : Dict.get entry "status" with _ | sv
    · simp [ho, hs]
    · rw [hs] at he
      rcases sv with _ | b | n | s | xs | statusInfo | t <;> simp_all

/-- Witness for C3 at concrete history entries: one carrying an `"outputs"`
key (with an error status block alongside, which `completed` still wins
over) and one carrying only an error status block. -/
theorem comfy_status_classification_witness :
    getPromptStatus "p1"
        (.ok (200, [("p1",
          [("outputs", .obj []),
           ("status", .obj [("status_str", .str "error")])])])) = "completed" ∧
    getPromptStatus "p2"
        (.ok (200, [("p2",
          [("status", .obj [("status_str", .str "error")])])])) = "failed" := by
  constructor
  · exact (comfy_status_classification "p1"
      [("p1", [("outputs", .obj []),
               ("status", .obj [("status_str", .str "error")])])]
      [("outputs", .obj []), ("status", .obj [("status_str", .str "error")])]
      (by rfl)).1 rfl
  · exact (comfy_status_classification "p2"
      [("p2", [("status", .obj [("status_str", .str "error")])])]
      [("status", .obj [("status_str", .str "error")])] (by rfl)).2.1 rfl rfl

/-!
## C4 — RemoteApiEngine request-body merge
-/

/-- Counterexample to C4: the claim says the caller's per-call value
survives a key collision with the engine-configured `extra_params`, but
`_prepare_request` applies `request_data.update(extra_params)` last, so the
engine-config value overwrites the caller's. -/
theorem remoteApi_merge_counterexample :
    Dict.get (prepareRequest (.dict []) [("style", .str "caller")]
        [("style", .str "config")] true (fun _ => "")) "style" =
      some (.str "config") ∧
    some (JVal.str "config") ≠ some (JVal.str "caller") := by
  constructor
  · rfl
  · intro h
    injection h with h1
    injection h1 with h2
    exact absurd h2 (by decide)

/-- C4 as amended: for every key present in the engine-configured
`extra_params`, the final request body holds the `extra_params` value —
engine-config values are merged last and override caller-explicit
parameters on shared keys. -/
theorem remoteApi_extra_params_override (inputData : ApiInput)
    (kwargs extraParams : Dict) (encodeImages : Bool) (b64 : String → String)
    (k : String) (v : JVal)
    (hnd : (Dict.keys extraParams).Nodup)
    (h : Dict.get extraParams k = some v) :
    Dict.get (prepareRequest inputData kwargs extraParams encodeImages b64) k =
      some v := by
  unfold prepareRequest
  exact Dict.get_update_self _ hnd h

/-- Witness for the amended C4 at the concrete colliding key. -/
theorem remoteApi_extra_params_override_witness :
    Dict.get (prepareRequest (.dict [("prompt", .str "p")])
        [("style", .str "caller")] [("style", .str "config")] true
        (fun _ => "")) "style" = some (.str "config") :=
  remoteApi_extra_params_override (.dict [("prompt", .str "p")])
    [("style", .str "caller")] [("style", .str "config")] true (fun _ => "")
    "style" (.str "config") (by simp [Dict.keys]) rfl

/-!
## C5 — GraphWorkflowEngine wall-clock timeout
-/

lemma wait_no_cancel (timeout : Nat) (start : Int) (clock : Nat → Int)
    (statusAt : Nat → String) (out : JVal) :
    ∀ fuel i, ComfyRequest.cancelRequest ∉
      (waitForCompletion timeout start clock statusAt out fuel i).2 := by
  intro fuel
  induction fuel with
  | zero => intro i; simp [waitForCompletion]
  | succ f ih =>
    intro i
    unfold waitForCompletion
    by_cases h1 : (timeout : Int) < clock i - start
    · simp [h1]
    · by_cases h2 : statusAt i = "completed"
      · simp [h1, h2]
      · by_cases h3 : statusAt i = "failed"
        · simp [h1, h2, h3]
        · simp only [h1, h2, h3, if_false, if_neg]
          simp [ih (i + 1)]

lemma wait_times_out (timeout : Nat) (start : Int) (clock : Nat → Int)
    (statusAt : Nat → String) (out : JVal) :
    ∀ m i fuel, (∀ j, j < m → statusAt (i + j) = "executing") →
      (∀ j, j < m → clock (i + j) - start ≤ (timeout : Int)) →
      (timeout : Int) < clock (i + m) - start →
      m < fuel →
      (waitForCompletion timeout start clock statusAt out fuel i).1 =
        some (.timedOut timeout) := by
  intro m
  induction m with
  | zero =>
    intro i fuel _ _ hover hfuel
    cases fuel with
    | zero => omega
    | succ f =>
      unfold waitForCompletion
      rw [if_pos (by simpa using hover)]
  | succ mm ih =>
    intro i fuel hexec hwithin hover hfuel
    cases fuel with
    | zero => omega
    | succ f =>
      unfold waitForCompletion
      have hnot : ¬ ((timeout : Int) < clock i - start) := by
        have h0 := hwithin 0 (by omega)
        simp only [Nat.add_zero] at h0
        exact not_lt.mpr h0
      rw [if_neg hnot]
      have hst : statusAt i = "executing" := by
        have := hexec 0 (by omega)
        simpa using this
      have hc : ¬ (statusAt i = "completed") := by rw [hst]; decide
      have hf : ¬ (statusAt i = "failed") := by rw [hst]; decide
      rw [if_neg hc, if_neg hf]
      show (waitForCompletion timeout start clock statusAt out f (i + 1)).1 =
        some (.timedOut timeout)
      exact ih (i + 1) f
        (fun j hj => by
          have := hexec (j + 1) (by omega)
          rwa [show i + 1 + j = i + (j + 1) by omega])
        (fun j hj => by
          have := hwithin (j + 1) (by omega)
          rwa [show i + 1 + j = i + (j + 1) by omega])
        (by rwa [show i + 1 + mm = i + (mm + 1) by omega])
        (by omega)

/-- C5: when the wall-clock budget elapses while the job is still reported
`executing`, `_wait_for_completion` fails with the timeout error — the
spec's `PIPELINE_TIMEOUT` — and the request trace of the polling loop never
contains a cancel request (for any fuel and any behaviour of the server,
since the engine has no cancel primitive). -/
theorem comfy_timeout_no_cancel (timeout m fuel : Nat) (start : Int)
    (clock : Nat → Int) (statusAt : Nat → String) (out : JVal)
    (hexec : ∀ j, j < m → statusAt j = "executing")
    (hwithin : ∀ j, j < m → clock j - start ≤ (timeout : Int))
    (hover : (timeout : Int) < clock m - start)
    (hfuel : m < fuel) :
    (waitForCompletion timeout start clock statusAt out fuel 0).1 =
      some (.timedOut timeout) ∧
    ∀ fuel' i, ComfyRequest.cancelRequest ∉
      (waitForCompletion timeout start clock statusAt out fuel' i).2 := by
  refine ⟨?_, wait_no_cancel timeout start clock statusAt out⟩
  exact wait_times_out timeout start clock statusAt out m 0 fuel
    (fun j hj => by simpa using hexec j hj)
    (fun j hj => by simpa using hwithin j hj)
    (by simpa using hover) hfuel

/-- Witness for C5: a 300-second budget, a clock advancing 301 seconds per
poll, and a job that stays `executing`. -/
theorem comfy_timeout_no_cancel_witness :
    (waitForCompletion 300 0 (fun i => (301 : Int) * i)
        (fun _ => "executing") (.obj []) 2 0).1 = some (.timedOut 300) :=
  (comfy_timeout_no_cancel 300 1 2 0 (fun i => (301 : Int) * i)
    (fun _ => "executing") (.obj [])
    (fun j _ => rfl)
    (fun j hj => by interval_cases j; norm_num)
    (by norm_num)
    (by decide)).1

/-!
## C6 — RemoteApiEngine response parsing
-/

/-- C6: response parsing for dict responses, quantified over every
behaviour of the image codec `dec` — a top-level `"error"` field always
raises (regardless of the decode configuration); otherwise the configured
result field is extracted, with the whole body returned when it is absent;
with decoding enabled, an embedded base64 image that decodes is returned as
the decoded image object (in place for a `{"image": ...}` result dict, and
directly for a bare string result), while an un-decodable string is
returned unchanged rather than raising. -/
theorem remoteApi_parse_response (resultKey : String)
    (dec : String → Option Nat) (fields : Dict) :
    (∀ (ev : JVal) (decodeResult : Bool), Dict.get fields "error" = some ev →
      parseResponse resultKey decodeResult dec (.obj fields) =
        .error (.apiReturnedError ev)) ∧
    (∀ rv : JVal, Dict.get fields "error" = none →
      Dict.get fields resultKey = some rv →
      parseResponse resultKey false dec (.obj fields) = .ok rv) ∧
    (Dict.get fields "error" = none → Dict.get fields resultKey = none →
      parseResponse resultKey false dec (.obj fields) = .ok (.obj fields)) ∧
    (∀ (rf : Dict) (s : String) (tag : Nat), Dict.get fields "error" = none →
      Dict.get fields resultKey = some (.obj rf) →
      Dict.get rf "image" = some (.str s) → dec s = some tag →
      parseResponse resultKey true dec (.obj fields) =
        .ok (.obj (Dict.set rf "image" (.img tag)))) ∧
    (∀ (s : String) (tag : Nat), Dict.get fields "error" = none →
      Dict.get fields resultKey = some (.str s) → dec s = some tag →
      parseResponse resultKey true dec (.obj fields) = .ok (.img tag)) ∧
    (∀ s : String, Dict.get fields "error" = none →
      Dict.get fields resultKey = some (.str s) → dec s = none →
      parseResponse resultKey true dec (.obj fields) = .ok (.str s)) := by
  refine ⟨?_, ?_, ?_, ?_, ?_, ?_⟩
  · intro ev decodeResult he
    simp [parseResponse, he]
  · intro rv he hr
    simp [parseResponse, he, hr]
  · intro he hr
    simp [parseResponse, he, hr]
  · intro rf s tag he hr hi hd
    simp [parseResponse, he, hr, decodeStep, hi, tryDecodeVal, hd]
  · intro s tag he hr hd
    simp [parseResponse, he, hr, decodeStep, hd]
  · intro s he hr hd
    simp [parseResponse, he, hr, decodeStep, hd]

/-- Witness for C6 at concrete responses: an error response, a decodable
embedded image (under a codec accepting it), and an un-decodable string
result (under a codec rejecting everything). -/
theorem remoteApi_parse_response_witness :
    parseResponse "result" true (fun _ => some 7)
        (.obj [("error", .str "x")]) =
      .error (.apiReturnedError (.str "x")) ∧
    parseResponse "result" true (fun _ => some 7)
        (.obj [("result", .obj [("image", .str "QUFB")])]) =
      .ok (.obj [("image", .img 7)]) ∧
    parseResponse "result" true (fun _ => none)
        (.obj [("result", .str "not-base64")]) = .ok (.str "not-base64") := by
  refine ⟨?_, ?_, ?_⟩
  · exact (remoteApi_parse_response "result" (fun _ => some 7)
      [("error", .str "x")]).1 (.str "x") true rfl
  · exact (remoteApi_parse_response "result" (fun _ => some 7)
      [("result", .obj [("image", .str "QUFB")])]).2.2.2.1
      [("image", .str "QUFB")] "QUFB" 7 rfl rfl rfl rfl
  · exact (remoteApi_parse_response "result" (fun _ => none)
      [("result", .str "not-base64")]).2.2.2.2.2 "not-base64" rfl rfl rfl

/-!
## C8 — graph-format heuristic
-/

/-- Counterexample to C8: in this workflow every non-wrapper value is a
mapping, so the claim's "judged independently of the `nodes` wrapper key"
demands flat treatment — but the non-empty `"nodes"` list short-circuits
the heuristic and the graph is rebuilt from the node list instead. -/
theorem comfy_flat_heuristic_counterexample :
    isPromptFormat counterexampleWorkflowC8 = true ∧
    normalizeWorkflow counterexampleWorkflowC8 ≠ .ok counterexampleWorkflowC8 := by
  refine ⟨rfl, fun h => ?_⟩
  have h1 : normalizeWorkflow counterexampleWorkflowC8 =
      .ok [("1", .obj [("id", .num 1), ("class_type", .str "LoadImage")])] := rfl
  rw [h1] at h
  injection h with h2
  have h3 := congrArg List.length h2
  simp [counterexampleWorkflowC8] at h3

/-- C8 as amended: the prompt-format heuristic decides flat treatment only
when the `"nodes"` entry is absent or empty — in that case a workflow is
kept as-is exactly when all its non-wrapper values are mappings — while a
workflow with a non-empty node list is always rebuilt from its node list,
keyed by each node's id rendered as a string (`buildFromNodes`). -/
theorem comfy_flat_heuristic_amended (workflow : Dict)
    (hnodes : Dict.get workflow "nodes" = none ∨
      ∃ xs, Dict.get workflow "nodes" = some (.arr xs)) :
    (((Dict.get workflow "nodes").getD (.arr [])).truthy = false →
      (normalizeWorkflow workflow = .ok workflow ↔
        isPromptFormat workflow = true)) ∧
    (((Dict.get workflow "nodes").getD (.arr [])).truthy = true →
      normalizeWorkflow workflow =
        buildFromNodes (asArr ((Dict.get workflow "nodes").getD (.arr [])))) := by
  have hlist : nodesList ((Dict.get workflow "nodes").getD (.arr [])) =
      .ok (asArr ((Dict.get workflow "nodes").getD (.arr []))) := by
    rcases hnodes with h | ⟨xs, h⟩
    · simp [h, nodesList, asArr]
    · simp [h, nodesList, asArr]
  constructor
  · intro hfalsy
    constructor
    · intro heq
      by_contra hfmt
      rw [Bool.not_eq_true] at hfmt
      have hempty : asArr ((Dict.get workflow "nodes").getD (.arr [])) = [] := by
        rcases hnodes with h | ⟨xs, h⟩
        · simp [h, asArr]
        · rw [h] at hfalsy ⊢
          simp only [Option.getD_some, JVal.truthy] at hfalsy
          have hxe : xs.isEmpty = true := by
            cases hx : xs.isEmpty
            · rw [hx] at hfalsy; simp at hfalsy
            · rfl
          simp [asArr, List.isEmpty_iff.mp hxe]
      have hnorm : normalizeWorkflow workflow = .ok [] := by
        simp only [normalizeWorkflow, hfalsy, Bool.not_false, if_true, hfmt,
          Bool.false_eq_true, if_false, hlist, hempty]
        rfl
      rw [hnorm] at heq
      have hwf : workflow = [] := (Except.ok.inj heq).symm
      rw [hwf] at hfmt
      simp [isPromptFormat] at hfmt
    · intro hfmt
      simp [normalizeWorkflow, hfalsy, hfmt]
  · intro htruthy
    simp only [normalizeWorkflow, htruthy, Bool.not_true, Bool.false_eq_true,
      if_false, hlist]
    rfl

/-- Witness for the amended C8: a flat workflow without a node list is kept
as-is, and the C8 counterexample workflow (non-empty node list) is rebuilt
from its node list. -/
theorem comfy_flat_heuristic_amended_witness :
    normalizeWorkflow [("5", .obj [("class_type", .str "KSampler")])] =
      .ok [("5", .obj [("class_type", .str "KSampler")])] ∧
    normalizeWorkflow counterexampleWorkflowC8 =
      buildFromNodes
        (asArr ((Dict.get counterexampleWorkflowC8 "nodes").getD (.arr []))) := by
  constructor
  · exact ((comfy_flat_heuristic_amended
      [("5", .obj [("class_type", .str "KSampler")])] (Or.inl rfl)).1 rfl).mpr rfl
  · exact (comfy_flat_heuristic_amended counterexampleWorkflowC8
      (Or.inr ⟨[.obj [("id", .num 1), ("class_type", .str "LoadImage")]], rfl⟩)).2 rfl

/-!
## C10 — upload failure tolerated
-/

/-- C10: `_upload_image_to_comfyui` never raises — a missing local file, an
exception from the read or the HTTP post, or an error status code all yield
`None`; and when the upload of the supplied primary image fails,
`_inject_input` succeeds with the normalized prompt unchanged, so the
workflow is submitted without the image written into any input node. -/
theorem comfy_upload_failure_skips_injection :
    (∀ (env : UploadEnv) (p : String), env.fileExists = false →
      uploadImageToComfyui env p = none) ∧
    (∀ (env : UploadEnv) (p : String) (e : PyExc),
      env.readOutcome = .error e → uploadImageToComfyui env p = none) ∧
    (∀ (env : UploadEnv) (p : String) (e : PyExc),
      env.postOutcome = .error e → uploadImageToComfyui env p = none) ∧
    (∀ (env : UploadEnv) (p : String) (sc : Nat) (nm : Option String),
      env.postOutcome = .ok (sc, nm) → 400 ≤ sc → sc < 600 →
      uploadImageToComfyui env p = none) ∧
    (∀ (workflow prompt : Dict) (p : String)
       (nids : Option String × Option String) (upload : String → Option String),
      normalizeWorkflow workflow = .ok prompt →
      scanInputNodes prompt none none = .ok nids →
      upload p = none →
      injectInput workflow (some p) none upload = .ok prompt) := by
  refine ⟨?_, ?_, ?_, ?_, ?_⟩
  · intro env p h
    simp [uploadImageToComfyui, h]
  · intro env p e h
    cases hf : env.fileExists
    · simp [uploadImageToComfyui, hf]
    · simp [uploadImageToComfyui, hf, h]
  · intro env p e h
    cases hf : env.fileExists
    · simp [uploadImageToComfyui, hf]
    · cases hr : env.readOutcome with
      | error e2 => simp [uploadImageToComfyui, hf, hr]
      | ok u => simp [uploadImageToComfyui, hf, hr, h]
  · intro env p sc nm h hsc hlt
    cases hf : env.fileExists
    · simp [uploadImageToComfyui, hf]
    · cases hr : env.readOutcome with
      | error e2 => simp [uploadImageToComfyui, hf, hr]
      | ok u => simp [uploadImageToComfyui, hf, hr, h, hsc, hlt]
  · intro workflow prompt p nids upload hnorm hscan hup
    obtain ⟨rawNid, poseNid⟩ := nids
    have hraw : injectOne prompt (some p) rawNid upload = .ok prompt := by
      cases rawNid with
      | none => rfl
      | some n =>
        simp only [injectOne]
        by_cases hcond : (p != "" && n != "") = true
        · simp [hcond, hup]
        · simp [hcond]
    have hpose : injectOne prompt none poseNid upload = .ok prompt := rfl
    unfold injectInput
    rw [hnorm]
    show (do
      let nids ← scanInputNodes prompt none none
      let prompt1 ← injectOne prompt (some p) nids.1 upload
      injectOne prompt1 none nids.2 upload) = .ok prompt
    rw [hscan]
    show (do
      let prompt1 ← injectOne prompt (some p) rawNid upload
      injectOne prompt1 none poseNid upload) = .ok prompt
    rw [hraw]
    show injectOne prompt none poseNid upload = .ok prompt
    exact hpose

/-- Witness for C10: a concrete environment whose upload file is missing,
one whose post raises, one answering HTTP 500, and the C7 well-formed part
of a workflow whose upload fails. -/
theorem comfy_upload_failure_skips_injection_witness :
    uploadImageToComfyui
        { fileExists := false, readOutcome := .ok (),
          postOutcome := .ok (200, some "a.png") } "missing.jpg" = none ∧
    uploadImageToComfyui
        { fileExists := true, readOutcome := .ok (),
          postOutcome := .error (.exception "conn refused") } "a.jpg" = none ∧
    uploadImageToComfyui
        { fileExists := true, readOutcome := .ok (),
          postOutcome := .ok (500, none) } "a.jpg" = none ∧
    injectInput [("3", .obj [("title", .str "input:raw_image:1")])]
        (some "a.jpg") none (fun _ => none) =
      .ok [("3", .obj [("title", .str "input:raw_image:1")])] := by
  refine ⟨?_, ?_, ?_, ?_⟩
  · exact comfy_upload_failure_skips_injection.1
      { fileExists := false, readOutcome := .ok (),
        postOutcome := .ok (200, some "a.png") } "missing.jpg" rfl
  · exact comfy_upload_failure_skips_injection.2.2.1
      { fileExists := true, readOutcome := .ok (),
        postOutcome := .error (.exception "conn refused") } "a.jpg"
      (.exception "conn refused") rfl
  · exact comfy_upload_failure_skips_injection.2.2.2.1
      { fileExists := true, readOutcome := .ok (),
        postOutcome := .ok (500, none) } "a.jpg" 500 none rfl (by norm_num)
      (by norm_num)
  · exact comfy_upload_failure_skips_injection.2.2.2.2
      [("3", .obj [("title", .str "input:raw_image:1")])]
      [("3", .obj [("title", .str "input:raw_image:1")])] "a.jpg"
      (some "3", none) (fun _ => none) rfl rfl rfl

/-!
## C7 — primary-image injection
-/

lemma pyEqStr_iff (v : JVal) (s : String) : pyEqStr v s = true ↔ v = .str s := by
  cases v <;> simp [pyEqStr]

lemma scanInputNodes_raw_spec :
    ∀ (l : List (String × JVal)) (raw pose : Option String) (n : String)
      (pn : Option String),
      scanInputNodes l raw pose = .ok (some n, pn) →
      raw = some n ∨ ∃ nf : Dict, (n, JVal.obj nf) ∈ l ∧
        (Dict.get nf "title").getD (.str "") = .str rawImageTag := by
  intro l
  induction l with
  | nil =>
    intro raw pose n pn h
    simp only [scanInputNodes, Except.ok.injEq, Prod.mk.injEq] at h
    exact Or.inl h.1
  | cons kv rest ih =>
    intro raw pose n pn h
    obtain ⟨key, v⟩ := kv
    rcases v with _ | b | nm | s | xs | nf | t
    · simp [scanInputNodes] at h
    · simp [scanInputNodes] at h
    · simp [scanInputNodes] at h
    · simp [scanInputNodes] at h
    · simp [scanInputNodes] at h
    · simp only [scanInputNodes] at h
      by_cases h1 : pyEqStr ((Dict.get nf "title").getD (.str "")) rawImageTag = true
      · rw [if_pos h1] at h
        rcases ih (some key) pose n pn h with heq | ⟨nf2, hmem, ht⟩
        · cases heq
          exact Or.inr ⟨nf, List.mem_cons_self _ _, (pyEqStr_iff _ _).mp h1⟩
        · exact Or.inr ⟨nf2, List.mem_cons_of_mem _ hmem, ht⟩
      · rw [if_neg h1] at h
        by_cases h2 : pyEqStr ((Dict.get nf "title").getD (.str "")) poseImageTag = true
        · rw [if_pos h2] at h
          rcases ih raw (some key) n pn h with heq | ⟨nf2, hmem, ht⟩
          · exact Or.inl heq
          · exact Or.inr ⟨nf2, List.mem_cons_of_mem _ hmem, ht⟩
        · rw [if_neg h2] at h
          rcases ih raw pose n pn h with heq | ⟨nf2, hmem, ht⟩
          · exact Or.inl heq
          · exact Or.inr ⟨nf2, List.mem_cons_of_mem _ hmem, ht⟩
    · simp [scanInputNodes] at h

/-- Counterexample to C7's unconditional tolerance: this workflow holds no
node titled with the raw-image tag, an image is supplied, and yet
`_inject_input` raises — the title scan calls `.get` on the flat
workflow's non-dict `"links"` value — so `execute` fails instead of merely
skipping the injection. -/
theorem comfy_missing_node_counterexample :
    hasRawTitledNode counterexampleWorkflowC7 = false ∧
    injectInput counterexampleWorkflowC7 (some "raw.jpg") none
        (fun _ => some "up.png") = .error .attributeError := by
  exact ⟨rfl, rfl⟩

/-- C7 as amended, restricted to workflows on which the title scan
completes (every value of the normalized mapping is a dict, as in any
well-formed graph): (1) when the scan finds a node id `n` for the raw tag
(a node bearing the raw-image title, as the last conjunct certifies) —
whether or not a pose-tagged node is present alongside — the
node's existing `"inputs"` being absent or a dict, a supplied non-empty
primary image whose upload returns filename `f` yields a submitted graph
whose node `n` carries `f` in its `"image"` input field; (2) when the scan
finds no raw-tagged node, injection is skipped without failure and the
prompt is submitted unchanged. -/
theorem comfy_primary_injection_amended :
    (∀ (workflow prompt : Dict) (n : String) (pn : Option String) (nf : Dict)
       (p f : String) (upload : String → Option String),
      normalizeWorkflow workflow = .ok prompt →
      (Dict.keys prompt).Nodup →
      scanInputNodes prompt none none = .ok (some n, pn) →
      Dict.get prompt n = some (.obj nf) →
      (Dict.get nf "inputs" = none ∨
        ∃ infl : Dict, Dict.get nf "inputs" = some (.obj infl)) →
      p ≠ "" → n ≠ "" → upload p = some f → f ≠ "" →
      ∃ prompt2 : Dict,
        injectInput workflow (some p) none upload = .ok prompt2 ∧
        getNodeInputImage prompt2 n = some (.str f) ∧
        (Dict.get nf "title").getD (.str "") = .str rawImageTag) ∧
    (∀ (workflow prompt : Dict) (p : String) (pn : Option String)
       (upload : String → Option String),
      normalizeWorkflow workflow = .ok prompt →
      scanInputNodes prompt none none = .ok (none, pn) →
      injectInput workflow (some p) none upload = .ok prompt) := by
  constructor
  · intro workflow prompt n pn nf p f upload hnorm hnodup hscan hget hinputs hp hn hup hf
    have hcond : (p != "" && n != "") = true := by
      rw [Bool.and_eq_true, bne_iff_ne, bne_iff_ne]
      exact ⟨hp, hn⟩
    have hf2 : (f != "") = true := bne_iff_ne.mpr hf
    have himg : ∃ prompt2 : Dict,
        injectImage prompt n f = .ok prompt2 ∧
        getNodeInputImage prompt2 n = some (.str f) := by
      rcases hinputs with hnone | ⟨infl, hsome⟩
      · have hck : Dict.containsKey nf "inputs" = false := by
          simp [Dict.containsKey, hnone]
        refine ⟨Dict.set prompt n
          (.obj (Dict.set (Dict.set nf "inputs" (.obj [])) "inputs"
            (.obj (Dict.set [] "image" (.str f))))), ?_, ?_⟩
        · simp only [injectImage, hget, hck, Bool.false_eq_true, if_false,
            Dict.get_set_self]
        · simp only [getNodeInputImage, Dict.get_set_self]
      · have hck : Dict.containsKey nf "inputs" = true := by
          simp [Dict.containsKey, hsome]
        refine ⟨Dict.set prompt n
          (.obj (Dict.set nf "inputs"
            (.obj (Dict.set infl "image" (.str f))))), ?_, ?_⟩
        · simp only [injectImage, hget, hck, if_true, hsome]
        · simp only [getNodeInputImage, Dict.get_set_self]
    obtain ⟨prompt2, himgEq, himgGet⟩ := himg
    have htitle : (Dict.get nf "title").getD (.str "") = .str rawImageTag := by
      rcases scanInputNodes_raw_spec prompt none none n pn hscan with
        heq | ⟨nf2, hmem, ht⟩
      · exact absurd heq (by simp)
      · have hg2 := Dict.get_of_mem_nodup hmem hnodup
        rw [hget] at hg2
        injection hg2 with hobj
        injection hobj with hnf
        rwa [hnf]
    refine ⟨prompt2, ?_, himgGet, htitle⟩
    unfold injectInput
    rw [hnorm]
    show (do
      let nids ← scanInputNodes prompt none none
      let prompt1 ← injectOne prompt (some p) nids.1 upload
      injectOne prompt1 none nids.2 upload) = .ok prompt2
    rw [hscan]
    show (do
      let prompt1 ← injectOne prompt (some p) (some n) upload
      injectOne prompt1 none pn upload) = .ok prompt2
    have h1 : injectOne prompt (some p) (some n) upload = injectImage prompt n f := by
      simp only [injectOne, hcond, if_true, hup, hf2]
    rw [h1, himgEq]
    show injectOne prompt2 none pn upload = .ok prompt2
    rfl
  · intro workflow prompt p pn upload hnorm hscan
    unfold injectInput
    rw [hnorm]
    show (do
      let nids ← scanInputNodes prompt none none
      let prompt1 ← injectOne prompt (some p) nids.1 upload
      injectOne prompt1 none nids.2 upload) = .ok prompt
    rw [hscan]
    rfl

/-- Witness for the amended C7 at a concrete workflow with one raw-tagged
node and a successful upload. -/
theorem comfy_primary_injection_amended_witness :
    injectInput [("3", .obj [("title", .str "input:raw_image:1")])]
        (some "a.jpg") none (fun _ => some "up.png") =
      .ok [("3", .obj [("title", .str "input:raw_image:1"),
                       ("inputs", .obj [("image", .str "up.png")])])] ∧
    getNodeInputImage
        [("3", .obj [("title", .str "input:raw_image:1"),
                     ("inputs", .obj [("image", .str "up.png")])])] "3" =
      some (.str "up.png") := by
  obtain ⟨prompt2, h1, h2, _⟩ := comfy_primary_injection_amended.1
    [("3", .obj [("title", .str "input:raw_image:1")])]
    [("3", .obj [("title", .str "input:raw_image:1")])]
    "3" none [("title", .str "input:raw_image:1")] "a.jpg" "up.png"
    (fun _ => some "up.png") rfl (by decide) rfl rfl (Or.inl rfl)
    (by decide) (by decide) rfl (by decide)
  have hcalc : injectInput [("3", .obj [("title", .str "input:raw_image:1")])]
      (some "a.jpg") none (fun _ => some "up.png") =
    .ok [("3", .obj [("title", .str "input:raw_image:1"),
                     ("inputs", .obj [("image", .str "up.png")])])] := rfl
  have hp2 : prompt2 =
      [("3", .obj [("title", .str "input:raw_image:1"),
                   ("inputs", .obj [("image", .str "up.png")])])] :=
    Except.ok.inj (h1.symm.trans hcalc)
  exact ⟨hcalc, hp2 ▸ h2⟩

end FormyWorker
